import Mathlib

/-!
Verification of the Lyra abstract-domain core: a shallow embedding of
`lyra/abstract_domains/quality/assumption_lattice.py`,
`lyra/abstract_domains/store.py` and the `KeyWrapper` contract, together
with theorems settling the behavioural claims about them.

Python in-place mutation is modelled by explicit state passing: every
operation returns the new value of the receiver (and, where an argument
could in principle be written to, the new value of the argument as well).
`deepcopy` is the identity on pure values.  Python exceptions are
modelled with `Option`/`Except`/dedicated result constructors.
-/

namespace Lyra

/-! ## TypeLattice (source: assumption_lattice.py, class TypeLattice) -/

/-- Source `TypeLattice.Status`: the 4-rank chain `Bool < Int < Float < Any`,
an `IntEnum` with values Bool=0, Int=1, Float=2, Any=3. -/
inductive TypeStatus where
  | bool
  | int
  | float
  | any
deriving DecidableEq

/-- Numeric value of the `IntEnum` member (used by `<=`, `max`, `min`). -/
def TypeStatus.rank : TypeStatus → Nat
  | .bool => 0
  | .int => 1
  | .float => 2
  | .any => 3

/-- Source `TypeLattice`, a `BottomMixin`: either the distinguished bottom
(`self.bottom()` sets a bottom flag) or a `Status` element. -/
inductive TypeLattice where
  | bot
  | status (s : TypeStatus)
deriving DecidableEq

/-- Source `TypeLattice.is_bottom` (from `BottomMixin`): the bottom flag. -/
def TypeLattice.is_bottom : TypeLattice → Bool
  | .bot => true
  | .status _ => false

/-- Source property `TypeLattice.element`: `None` when bottom, else the status. -/
def TypeLattice.element : TypeLattice → Option TypeStatus
  | .bot => none
  | .status s => some s

/-- Source `TypeLattice.is_top`: `self.element == TypeLattice.Status.Any`
(false when bottom, since `element` is then `None`). -/
def TypeLattice.is_top (t : TypeLattice) : Bool :=
  t.element = some TypeStatus.any

/-- Source `TypeLattice.top()`: replace the receiver with `Any`. -/
def TypeLattice.topped : TypeLattice → TypeLattice :=
  fun _ => .status .any

/-- Source `TypeLattice.bottom()` (from `BottomMixin`): set the bottom flag. -/
def TypeLattice.bottomed : TypeLattice → TypeLattice :=
  fun _ => .bot

/-- Source `TypeLattice._less_equal`: `self.element <= other.element`,
rank comparison of the two `IntEnum` members.  Only reached by the
`less_equal` wrapper with both sides non-bottom; the bottom rows are
unreachable there (in Python they would compare `None`). -/
def TypeLattice.less_equal' : TypeLattice → TypeLattice → Bool
  | .status s, .status t => s.rank ≤ t.rank
  | _, _ => false

/-- Source `TypeLattice._join`: replace the receiver with
`max(self.element, other.element)`.  Only reached with both sides
non-bottom; the bottom rows are unreachable from the wrapper. -/
def TypeLattice.join' : TypeLattice → TypeLattice → TypeLattice
  | .status s, .status t => .status (if s.rank ≤ t.rank then t else s)
  | a, _ => a

/-- Modelled from the spec: the generic `Lattice.less_equal` wrapper
(`lattice.py` is not part of the sources).  It first short-circuits the
trivial cases — bottom is less than anything, anything is less than top —
and otherwise delegates to the domain-specific hook. -/
def TypeLattice.less_equal (self other : TypeLattice) : Bool :=
  if self.is_bottom || other.is_top then true
  else if other.is_bottom || self.is_top then false
  else self.less_equal' other

/-- Modelled from the spec: the generic `Lattice.join` wrapper
(`lattice.py` is not part of the sources).  Joining onto bottom, or with
a top argument, replaces the receiver with a deep copy of the argument;
joining with a bottom argument, or onto top, leaves the receiver
unchanged; otherwise the hook performs the algebra. -/
def TypeLattice.join (self other : TypeLattice) : TypeLattice :=
  if self.is_bottom || other.is_top then other
  else if other.is_bottom || self.is_top then self
  else self.join' other

/-! ## IntervalLattice (external collaborator, not part of the sources) -/

/-- Modelled from the spec: the external numeric-range lattice
(`interval_domain.py` is not part of the sources).  §6 requires only that
it satisfy the generic Lattice contract with a default top element; §8
scenario 2 shows it is an interval domain whose join is the hull.  An
element is the distinguished bottom, or an interval with optional lower
and upper bounds (`none` = unbounded on that side); an interval whose
upper bound is below its lower bound denotes the empty range and counts
as bottom. -/
inductive IntervalLattice where
  | bot
  | iv (lower upper : Option Int)
deriving DecidableEq

/-- Modelled from the spec: bottom means the empty range. -/
def IntervalLattice.is_bottom : IntervalLattice → Bool
  | .bot => true
  | .iv (some l) (some u) => u < l
  | .iv _ _ => false

/-- Modelled from the spec: top is the full range. -/
def IntervalLattice.is_top : IntervalLattice → Bool
  | .iv none none => true
  | _ => false

/-- Modelled from the spec: force the receiver to the full range. -/
def IntervalLattice.topped : IntervalLattice → IntervalLattice :=
  fun _ => .iv none none

/-- Modelled from the spec: force the receiver to the empty range. -/
def IntervalLattice.bottomed : IntervalLattice → IntervalLattice :=
  fun _ => .bot

/-- Modelled from the spec: hook order on intervals is containment;
`none` is `-∞` for lower bounds and `+∞` for upper bounds. -/
def IntervalLattice.less_equal' : IntervalLattice → IntervalLattice → Bool
  | .iv l1 u1, .iv l2 u2 =>
    (match l2, l1 with
     | none, _ => true
     | some _, none => false
     | some a, some b => a ≤ b)
    &&
    (match u1, u2 with
     | _, none => true
     | none, some _ => false
     | some a, some b => a ≤ b)
  | _, _ => false

/-- Modelled from the spec: hook join of two intervals is the hull. -/
def IntervalLattice.join' : IntervalLattice → IntervalLattice → IntervalLattice
  | .iv l1 u1, .iv l2 u2 =>
    .iv
      (match l1, l2 with
       | some a, some b => some (min a b)
       | _, _ => none)
      (match u1, u2 with
       | some a, some b => some (max a b)
       | _, _ => none)
  | a, _ => a

/-- Modelled from the spec: the generic `Lattice.less_equal` wrapper over
interval elements. -/
def IntervalLattice.less_equal (self other : IntervalLattice) : Bool :=
  if self.is_bottom || other.is_top then true
  else if other.is_bottom || self.is_top then false
  else self.less_equal' other

/-- Modelled from the spec: the generic `Lattice.join` wrapper over
interval elements. -/
def IntervalLattice.join (self other : IntervalLattice) : IntervalLattice :=
  if self.is_bottom || other.is_top then other
  else if other.is_bottom || self.is_top then self
  else self.join' other

/-! ## AssumptionLattice (source: assumption_lattice.py, class AssumptionLattice) -/

/-- Source `AssumptionLattice`: the fixed two-field product of a type
assumption and a range assumption (stored in the `_assumptions`
dictionary under the keys `type_assmp` and `range_assmp`). -/
structure AssumptionLattice where
  type_assmp : TypeLattice
  range_assmp : IntervalLattice
deriving DecidableEq

/-- Source `AssumptionLattice.__init__` defaults: both fields top. -/
def AssumptionLattice.default : AssumptionLattice :=
  ⟨TypeLattice.status .any, IntervalLattice.iv none none⟩

/-- Source `AssumptionLattice.bottom()`: force every field to its own bottom. -/
def AssumptionLattice.bottomed (a : AssumptionLattice) : AssumptionLattice :=
  ⟨a.type_assmp.bottomed, a.range_assmp.bottomed⟩

/-- Source `AssumptionLattice.top()`: force every field to its own top. -/
def AssumptionLattice.topped (a : AssumptionLattice) : AssumptionLattice :=
  ⟨a.type_assmp.topped, a.range_assmp.topped⟩

/-- One value of the `_assumptions` dictionary: the two entries hold
lattice elements of different types, so they appear behind one sum. -/
inductive AField where
  | typeA (t : TypeLattice)
  | rangeA (r : IntervalLattice)
deriving DecidableEq

/-- Dispatch `assumption.is_bottom()` on a dictionary value. -/
def AField.is_bottom : AField → Bool
  | .typeA t => t.is_bottom
  | .rangeA r => r.is_bottom

/-- Dispatch `assumption.is_top()` on a dictionary value. -/
def AField.is_top : AField → Bool
  | .typeA t => t.is_top
  | .rangeA r => r.is_top

/-- Source `self.assumptions.values()` in iteration order:
`type_assmp` first, then `range_assmp`. -/
def AssumptionLattice.assumptionValues (a : AssumptionLattice) : List AField :=
  [.typeA a.type_assmp, .rangeA a.range_assmp]

/-- Source `AssumptionLattice.is_bottom`: the loop
`for assumption in self.assumptions.values(): if assumption.is_bottom(): return True`
— true as soon as ANY dictionary value is bottom. -/
def AssumptionLattice.is_bottom (a : AssumptionLattice) : Bool :=
  a.assumptionValues.any AField.is_bottom

/-- Source `AssumptionLattice.is_top`: the loop
`for assumption in self.assumptions.values(): if not assumption.is_top(): return False`
— true only if ALL dictionary values are top. -/
def AssumptionLattice.is_top (a : AssumptionLattice) : Bool :=
  a.assumptionValues.all AField.is_top

/-- Source `AssumptionLattice._less_equal`: field-wise `less_equal`
(each field through its own public wrapper). -/
def AssumptionLattice.less_equal' (a b : AssumptionLattice) : Bool :=
  a.type_assmp.less_equal b.type_assmp && a.range_assmp.less_equal b.range_assmp

/-- Source `AssumptionLattice._join`: field-wise join (each field through
its own public wrapper), mutating and returning the receiver. -/
def AssumptionLattice.join' (a b : AssumptionLattice) : AssumptionLattice :=
  ⟨a.type_assmp.join b.type_assmp, a.range_assmp.join b.range_assmp⟩

/-- Modelled from the spec: the generic `Lattice.less_equal` wrapper over
assumption elements. -/
def AssumptionLattice.less_equal (self other : AssumptionLattice) : Bool :=
  if self.is_bottom || other.is_top then true
  else if other.is_bottom || self.is_top then false
  else self.less_equal' other

/-- Modelled from the spec: the generic `Lattice.join` wrapper over
assumption elements. -/
def AssumptionLattice.join (self other : AssumptionLattice) : AssumptionLattice :=
  if self.is_bottom || other.is_top then other
  else if other.is_bottom || self.is_top then self
  else self.join' other

/-! ## InputAssumptionLattice (source: assumption_lattice.py, class InputAssumptionLattice) -/

/-- Modelled from the spec: the kind flag of a `BoundedLattice`
(`lattice.py` is not part of the sources).  `bottom()`/`top()` force the
receiver to the distinguished bottom/top by setting this flag; a freshly
constructed element is in the default kind. -/
inductive BKind where
  | bot
  | dflt
  | top
deriving DecidableEq

/-- Source element of the `assmps` list of an `InputAssumptionLattice`:
either a leaf `AssumptionLattice` or a nested `InputAssumptionLattice`
(whose fields are inlined here: kind flag, `iterations` — `none` is the
Python `None` sentinel for unresolved iterations —, `assmps`, `is_loop`).
The opaque `condition` field is never read by any operation under
verification and is omitted. -/
inductive Assump where
  | leaf (a : AssumptionLattice)
  | nested (kind : BKind) (iterations : Option Nat) (assmps : List Assump) (is_loop : Bool)

/-- Source `InputAssumptionLattice`: iteration count (`none` = the
unresolved `None` sentinel), ordered assumption sequence, `is_loop` flag,
plus the `BoundedLattice` kind flag. -/
structure InputAssumptionLattice where
  kind : BKind
  iterations : Option Nat
  assmps : List Assump
  is_loop : Bool

/-- Source `InputAssumptionLattice()` default: 1 iteration, empty list,
not a loop, default kind. -/
instance : Inhabited InputAssumptionLattice :=
  ⟨⟨.dflt, some 1, [], false⟩⟩

/-- View a nested sequence element as an `InputAssumptionLattice`
(junk on a leaf; every use is guarded by an `isinstance` check). -/
def Assump.toIAL : Assump → InputAssumptionLattice
  | .nested k i l b => ⟨k, i, l, b⟩
  | .leaf _ => default

/-- Store an `InputAssumptionLattice` back as a sequence element. -/
def Assump.ofIAL (s : InputAssumptionLattice) : Assump :=
  .nested s.kind s.iterations s.assmps s.is_loop

/-- Source `isinstance(assmp, InputAssumptionLattice)`. -/
def Assump.isNested : Assump → Bool
  | .nested .. => true
  | .leaf _ => false

/-- Source `isinstance(assmp, InputAssumptionLattice) and assmp.iterations is None`:
a nested element carrying the unresolved sentinel. -/
def Assump.isPlaceholder : Assump → Bool
  | .nested _ none _ _ => true
  | _ => false

/-- Modelled from the spec: `BoundedLattice.is_bottom` is the kind flag. -/
def InputAssumptionLattice.is_bottom (s : InputAssumptionLattice) : Bool :=
  s.kind = .bot

/-- Modelled from the spec: `BoundedLattice.is_top` is the kind flag. -/
def InputAssumptionLattice.is_top (s : InputAssumptionLattice) : Bool :=
  s.kind = .top

/-- Modelled from the spec: `BoundedLattice.top()` forces the receiver to
top by setting the kind flag, leaving the other attributes in place. -/
def InputAssumptionLattice.toTop (s : InputAssumptionLattice) : InputAssumptionLattice :=
  {s with kind := .top}

/-- Source property `InputAssumptionLattice.assmps`: `None` when the
element is bottom or top, else the underlying `_assmps` list. -/
def InputAssumptionLattice.assmpsProp (s : InputAssumptionLattice) : Option (List Assump) :=
  if s.is_bottom || s.is_top then none else some s.assmps

/-- Source `InputAssumptionLattice.add_assumption_front`: insert one leaf
assumption at position 0 of the raw `_assmps` list (total, the property
accessor is not used). -/
def InputAssumptionLattice.add_assumption_front (assmp : AssumptionLattice)
    (s : InputAssumptionLattice) : InputAssumptionLattice :=
  {s with assmps := .leaf assmp :: s.assmps}

/-- Source `InputAssumptionLattice.add_assumptions_front`:
`self._assmps = assmps + self.assmps` — the right-hand side goes through
the `assmps` property, which is `None` on a bottom or top element; the
list concatenation then raises a `TypeError`, modelled as `none`. -/
def InputAssumptionLattice.add_assumptions_front (new : List AssumptionLattice)
    (s : InputAssumptionLattice) : Option InputAssumptionLattice :=
  match s.assmpsProp with
  | none => none
  | some l => some {s with assmps := new.map .leaf ++ l}

/-- Source `InputAssumptionLattice.add_assumptions_with_iter`: wrap the
given assumptions as one nested loop-block element with the given
iteration count and insert it at position 0 of the raw `_assmps` list. -/
def InputAssumptionLattice.add_assumptions_with_iter (iterations : Nat)
    (assmps : List Assump) (s : InputAssumptionLattice) : InputAssumptionLattice :=
  {s with assmps := .nested .dflt (some iterations) assmps true :: s.assmps}

/-- Outcome of the embedded `join`: `fuel` is the artificial out-of-fuel
marker of the embedding, `assertErr` models a Python `AssertionError`
raised by `_join`, and `ok` carries the final value of the receiver and
the final value of the argument. -/
inductive JoinRes where
  | fuel
  | assertErr
  | ok (self other : InputAssumptionLattice)

/-- Outcome of the position-wise loop inside `_join`: `collapsed` means
the loop exited early through `return self.top()` (carrying the final
state of both lists: the processed prefix followed by the untouched
rest), `okL` means the loop completed. -/
inductive JLRes where
  | fuel
  | assertErr
  | collapsed (l1 l2 : List Assump)
  | okL (l1 l2 : List Assump)

/-- Prepend one processed position pair to the final state of both lists. -/
def JLRes.cons (p : Assump × Assump) : JLRes → JLRes
  | .fuel => .fuel
  | .assertErr => .assertErr
  | .collapsed l1 l2 => .collapsed (p.1 :: l1) (p.2 :: l2)
  | .okL l1 l2 => .okL (p.1 :: l1) (p.2 :: l2)

/-- Outcome of one iteration of the loop inside `_join`: `collapse` is
the early exit `return self.top()`, `okP` carries the final state of the
receiver position and of the argument position. -/
inductive PosRes where
  | fuel
  | assertErr
  | collapse
  | okP (p : Assump × Assump)

/-- Source `InputAssumptionLattice._join`, one iteration of the loop
`for assmp1, assmp2 in zip(self.assmps, other.assmps)`.  `jp` is the
public `join` used for two nested positions (two leaf positions use
`AssumptionLattice.join`).  In source order: a nested receiver position
with unresolved iterations adopts a deep copy of the argument position
(`assmp1.replace(deepcopy(assmp2))`); an argument position that is
nested with unresolved iterations is skipped (`continue`); two positions
of the same kind are joined (`assmp1.join(assmp2)`); a kind mismatch
exits the loop through `return self.top()`. -/
def Assump.joinPos (jp : InputAssumptionLattice → InputAssumptionLattice → JoinRes) :
    Assump → Assump → PosRes
  | a1, a2 =>
    if a1.isPlaceholder then .okP (a2, a2)
    else if a2.isPlaceholder then .okP (a1, a2)
    else if a1.isNested = a2.isNested then
      match a1, a2 with
      | .leaf x, .leaf y => .okP (.leaf (x.join y), .leaf y)
      | .nested k i l b, .nested k' i' l' b' =>
        match jp ⟨k, i, l, b⟩ ⟨k', i', l', b'⟩ with
        | .fuel => .fuel
        | .assertErr => .assertErr
        | .ok j o2 => .okP (Assump.ofIAL j, Assump.ofIAL o2)
      | _, _ => .fuel
    else .collapse

/-- Source `InputAssumptionLattice._join`, equal-length case: the whole
loop over `zip(self.assmps, other.assmps)`, iterating `Assump.joinPos`
and carrying both lists' states. -/
def InputAssumptionLattice.joinList (jp : InputAssumptionLattice → InputAssumptionLattice → JoinRes) :
    List Assump → List Assump → JLRes
  | [], l2 => .okL [] l2
  | l1, [] => .okL l1 []
  | a1 :: l1, a2 :: l2 =>
    match Assump.joinPos jp a1 a2 with
    | .fuel => .fuel
    | .assertErr => .assertErr
    | .collapse => .collapsed (a1 :: l1) (a2 :: l2)
    | .okP p => JLRes.cons p (InputAssumptionLattice.joinList jp l1 l2)

/-- Hand the original argument back after the retry on a deep copy:
`self.join(other_copy); return self` returns the receiver's new state
from the recursive call while the argument object itself was never
touched (only its deep copy was folded and joined). -/
def JoinRes.withArg (other : InputAssumptionLattice) : JoinRes → JoinRes
  | .ok r _ => .ok r other
  | e => e

/-- Source `InputAssumptionLattice._join`, parametrised by the public
`join` (`jp`) used for the recursive calls.  In source order:

1. `other.iterations is None` — return the unchanged receiver;
2. `self.iterations is None` — the receiver becomes a deep copy of the
   argument (`self.replace(deepcopy(other))`);
3. differing iteration counts — `return self.top()`;
4. equal sequence lengths — the position-wise loop, then `return self`;
5. receiver strictly longer (argument sequence non-empty): if the
   argument's first element is nested with unresolved iterations and the
   receiver's first two elements are both nested, fold the receiver's
   first two elements via `join`, `pop` the second, `assert` the lengths
   now agree (an `AssertionError` otherwise), and retry `self.join(other)`;
6. symmetrically with the argument strictly longer, the fold operating
   on a deep copy of the argument, so the argument itself is returned
   unchanged;
7. in every remaining shape, `return self.top()`. -/
def InputAssumptionLattice.joinBody
    (jp : InputAssumptionLattice → InputAssumptionLattice → JoinRes)
    (self other : InputAssumptionLattice) : JoinRes :=
  if other.iterations = none then .ok self other
  else if self.iterations = none then .ok other other
  else if self.iterations ≠ other.iterations then .ok self.toTop other
  else if self.assmps.length = other.assmps.length then
    match InputAssumptionLattice.joinList jp self.assmps other.assmps with
    | .fuel => .fuel
    | .assertErr => .assertErr
    | .collapsed l1 l2 => .ok {self with kind := .top, assmps := l1} {other with assmps := l2}
    | .okL l1 l2 => .ok {self with assmps := l1} {other with assmps := l2}
  else if self.assmps.length > other.assmps.length ∧ other.assmps.length > 0 then
    match self.assmps, other.assmps with
    | a0 :: a1 :: r1, b0 :: _ =>
      if b0.isNested then
        if b0.isPlaceholder ∧ a0.isNested ∧ a1.isNested then
          match jp a0.toIAL a1.toIAL with
          | .fuel => .fuel
          | .assertErr => .assertErr
          | .ok j _ =>
            if r1.length + 1 = other.assmps.length then
              jp {self with assmps := Assump.ofIAL j :: r1} other
            else .assertErr
        else .ok self.toTop other
      else .ok self.toTop other
    | _, _ => .ok self.toTop other
  else if other.assmps.length > self.assmps.length ∧ self.assmps.length > 0 then
    match self.assmps, other.assmps with
    | a0 :: _, b0 :: b1 :: r2 =>
      if a0.isNested then
        if a0.isPlaceholder ∧ b0.isNested ∧ b1.isNested then
          match jp b0.toIAL b1.toIAL with
          | .fuel => .fuel
          | .assertErr => .assertErr
          | .ok j _ =>
            if self.assmps.length = r2.length + 1 then
              (jp self {other with assmps := Assump.ofIAL j :: r2}).withArg other
            else .assertErr
        else .ok self.toTop other
      else .ok self.toTop other
    | _, _ => .ok self.toTop other
  else .ok self.toTop other

/-- Modelled from the spec: the generic `Lattice.join` wrapper over input
assumption elements, with fuel making the recursion through `_join`
structural.  Joining onto bottom, or with a top argument, replaces the
receiver by a deep copy of the argument; joining with a bottom argument,
or onto top, leaves the receiver unchanged; otherwise `_join` runs. -/
def InputAssumptionLattice.join : Nat → InputAssumptionLattice → InputAssumptionLattice → JoinRes
  | 0, _, _ => .fuel
  | f + 1, self, other =>
    if self.is_bottom || other.is_top then .ok other other
    else if other.is_bottom || self.is_top then .ok self other
    else InputAssumptionLattice.joinBody (InputAssumptionLattice.join f) self other

/-- Source `InputAssumptionLattice._join` at a given fuel level: the
domain-specific hook, with inner recursive joins running at that fuel. -/
def InputAssumptionLattice.join' (f : Nat) :
    InputAssumptionLattice → InputAssumptionLattice → JoinRes :=
  InputAssumptionLattice.joinBody (InputAssumptionLattice.join f)

/-- Per-position comparison `assmp1.less_equal(assmp2)` used by
`InputAssumptionLattice._less_equal`.  `lp` is the public `less_equal`
for two nested positions; two leaves use `AssumptionLattice.less_equal`.
A mixed pair goes through the generic wrapper guards and, when neither
guard fires, crashes in the respective `_less_equal` hook (an
`AttributeError` on the foreign operand), modelled as `none`. -/
def Assump.pairLe (lp : InputAssumptionLattice → InputAssumptionLattice → Option Bool) :
    Assump → Assump → Option Bool
  | .leaf x, .leaf y => some (x.less_equal y)
  | .nested k i l b, .nested k' i' l' b' => lp ⟨k, i, l, b⟩ ⟨k', i', l', b'⟩
  | .leaf x, .nested k i l b =>
    if x.is_bottom || (InputAssumptionLattice.mk k i l b).is_top then some true
    else if (InputAssumptionLattice.mk k i l b).is_bottom || x.is_top then some false
    else none
  | .nested k i l b, .leaf y =>
    if (InputAssumptionLattice.mk k i l b).is_bottom || y.is_top then some true
    else if y.is_bottom || (InputAssumptionLattice.mk k i l b).is_top then some false
    else none

/-- The loop of `InputAssumptionLattice._less_equal`: position-wise over
`zip`, stopping at the first `False` (or crash). -/
def InputAssumptionLattice.leList
    (lp : InputAssumptionLattice → InputAssumptionLattice → Option Bool) :
    List Assump → List Assump → Option Bool
  | [], _ => some true
  | _, [] => some true
  | a1 :: l1, a2 :: l2 =>
    match Assump.pairLe lp a1 a2 with
    | none => none
    | some false => some false
    | some true => InputAssumptionLattice.leList lp l1 l2

/-- Source `InputAssumptionLattice._less_equal`, parametrised by the
public `less_equal` used on nested positions: sequences of unequal
length are not comparable (`False`); otherwise every position must be
`less_equal` its counterpart.  The iteration counts are not consulted. -/
def InputAssumptionLattice.leBody
    (lp : InputAssumptionLattice → InputAssumptionLattice → Option Bool)
    (self other : InputAssumptionLattice) : Option Bool :=
  if self.assmps.length ≠ other.assmps.length then some false
  else InputAssumptionLattice.leList lp self.assmps other.assmps

/-- Modelled from the spec: the generic `Lattice.less_equal` wrapper over
input assumption elements, with fuel making the recursion structural. -/
def InputAssumptionLattice.less_equal :
    Nat → InputAssumptionLattice → InputAssumptionLattice → Option Bool
  | 0, _, _ => none
  | f + 1, self, other =>
    if self.is_bottom || other.is_top then some true
    else if other.is_bottom || self.is_top then some false
    else InputAssumptionLattice.leBody (InputAssumptionLattice.less_equal f) self other

/-- Source `InputAssumptionLattice._meet`: unconditionally raises
`NotImplementedError`. -/
def InputAssumptionLattice.meet' (self other : InputAssumptionLattice) :
    Except String InputAssumptionLattice :=
  let _ := self
  let _ := other
  .error "Meet is not implemented."

/-- Source `InputAssumptionLattice._widening`: unconditionally raises
`NotImplementedError`. -/
def InputAssumptionLattice.widening' (self other : InputAssumptionLattice) :
    Except String InputAssumptionLattice :=
  let _ := self
  let _ := other
  .error "Widening is not implemented."

/-! ## Store (source: store.py, class Store) -/

/-- Source `LyraType` hierarchy (`lyra/core/types.py`, external): the
static types that select a lattice implementation.  Only the concrete
subclasses used by the sources are distinguished. -/
inductive LyraType where
  | boolean
  | integer
  | float
  | other
deriving DecidableEq

/-- Source `VariableIdentifier` (`lyra/core/expressions.py`, external): a
program variable carrying its static type `typ`. -/
structure VariableIdentifier where
  name : String
  typ : LyraType
deriving DecidableEq

/-- Source `TypeLattice.from_lyra_type`: map a static type to the rank
used for it (`boolean → Bool`, `integer → Int`, `float → Float`,
anything else → `Any`). -/
def TypeLattice.from_lyra_type : LyraType → TypeLattice
  | .boolean => .status .bool
  | .integer => .status .int
  | .float => .status .float
  | .other => .status .any

/-- First-match lookup in the `Var -> L` dictionary (Python `dict`
access / `in` test). -/
def lookupVar {L : Type} : List (VariableIdentifier × L) → VariableIdentifier → Option L
  | [], _ => none
  | (w, e) :: rest, v => if w = v then some e else lookupVar rest v

/-- Python `dict` assignment `store[v] = e`: overwrite the existing entry
for `v` if present, otherwise append a new one. -/
def insertVar {L : Type} (v : VariableIdentifier) (e : L) :
    List (VariableIdentifier × L) → List (VariableIdentifier × L)
  | [] => [(v, e)]
  | (w, e') :: rest =>
    if w = v then (v, e) :: rest else (w, e') :: insertVar v e rest

/-- Python `del store[v]`: drop the entry for `v` (first occurrence;
construction keeps keys unique). -/
def eraseVar {L : Type} (v : VariableIdentifier) :
    List (VariableIdentifier × L) → List (VariableIdentifier × L)
  | [] => []
  | (w, e) :: rest =>
    if w = v then rest else (w, e) :: eraseVar v rest

/-- The errors `Store` raises: the `ValueError` naming the missing
variable type raised by `__init__` (and the `KeyError` a lookup of an
unregistered type raises inside `add_var`), and the `ValueError` raised
by `add_var` on an already-present variable. -/
inductive StoreError where
  | missingLattice (t : LyraType)
  | alreadyPresent
deriving DecidableEq

/-- Source `Store`: the current `Var -> L` mapping together with the
retained `_lattices` configuration.  The per-type constructor and its
`_arguments` are fused into one `Unit → L` factory; an unregistered type
is `none` (a Python `KeyError` on access). -/
structure Store (L : Type) where
  lattices : LyraType → Option (Unit → L)
  store : List (VariableIdentifier × L)

/-- Build the dictionary comprehension
`{v: lattices[v.typ](**arguments[v.typ]) for v in variables}`: the
variables are processed in order and the first one whose type has no
registered lattice raises the `KeyError` that `__init__` turns into a
`ValueError` naming that type. -/
def buildVarMap {L : Type} (lattices : LyraType → Option (Unit → L)) :
    List VariableIdentifier → Except StoreError (List (VariableIdentifier × L))
  | [] => .ok []
  | v :: rest =>
    match lattices v.typ with
    | none => .error (.missingLattice v.typ)
    | some mk =>
      match buildVarMap lattices rest with
      | .error e => .error e
      | .ok m => .ok (insertVar v (mk ()) m)

/-- Source `Store.__init__`: create the mapping from each variable to a
freshly constructed element of the lattice registered for its type, or
fail with the error naming the first missing type — no partial store is
produced. -/
def Store.ofVars {L : Type} (vars : List VariableIdentifier)
    (lattices : LyraType → Option (Unit → L)) : Except StoreError (Store L) :=
  match buildVarMap lattices vars with
  | .error e => .error e
  | .ok m => .ok ⟨lattices, m⟩

/-- Source `Store.add_var`: a variable not yet tracked gets a freshly
constructed element (a `KeyError`, modelled as `missingLattice`, if its
type has no registered lattice); an already-tracked variable raises the
`ValueError` "Variable can only be added to a store if it is not already
present". -/
def Store.add_var {L : Type} (s : Store L) (v : VariableIdentifier) :
    Except StoreError (Store L) :=
  match lookupVar s.store v with
  | none =>
    match s.lattices v.typ with
    | none => .error (.missingLattice v.typ)
    | some mkL => .ok ({s with store := insertVar v (mkL ()) s.store})
  | some _ => .error .alreadyPresent

/-- Source `Store.remove_var`: delete the entry if present; a silent
no-op if absent (the `raise` in the `else` branch is commented out). -/
def Store.remove_var {L : Type} (s : Store L) (v : VariableIdentifier) : Store L :=
  {s with store := eraseVar v s.store}

/-- Source `Store.invalidate_var`: `self.store[var].top()` — reset the
variable's element to top via the element's own `top` method `topF`; on
an untracked variable the dictionary access raises a `KeyError`,
modelled as `none`. -/
def Store.invalidate_var {L : Type} (topF : L → L) (s : Store L)
    (v : VariableIdentifier) : Option (Store L) :=
  match lookupVar s.store v with
  | none => none
  | some e => some {s with store := insertVar v (topF e) s.store}

/-! ## Concrete elements used by witnesses and counterexamples -/

/-- A leaf assumption with both fields top (a default `AssumptionLattice()`). -/
def exLeaf : Assump := .leaf AssumptionLattice.default

/-- A nested element carrying the unresolved iterations sentinel. -/
def exPlaceholder : Assump := .nested .dflt none [] false

/-- A nested element with 2 resolved iterations over one leaf. -/
def exNested2 : Assump := .nested .dflt (some 2) [exLeaf] false

/-- A three-element sequence starting with two resolved nested elements. -/
def exSelfLong : InputAssumptionLattice :=
  ⟨.dflt, some 1, [exNested2, exNested2, exLeaf], false⟩

/-- A two-element sequence starting with an unresolved placeholder. -/
def exOtherShort : InputAssumptionLattice :=
  ⟨.dflt, some 1, [exPlaceholder, exLeaf], false⟩

/-- The value `join` produces from `exSelfLong` and `exOtherShort`. -/
def exFolded : InputAssumptionLattice :=
  ⟨.dflt, some 1, [exNested2, exLeaf], false⟩

/-- Three resolved iterations over the empty sequence. -/
def exIter3 : InputAssumptionLattice := ⟨.dflt, some 3, [], false⟩

/-- Five resolved iterations over the empty sequence. -/
def exIter5 : InputAssumptionLattice := ⟨.dflt, some 5, [], false⟩

/-- Three resolved iterations over a one-leaf sequence. -/
def exIter3Seq : InputAssumptionLattice := ⟨.dflt, some 3, [exLeaf], false⟩

/-- Five resolved iterations over the same one-leaf sequence. -/
def exIter5Seq : InputAssumptionLattice := ⟨.dflt, some 5, [exLeaf], false⟩

/-- One resolved iteration over the empty sequence (a default element). -/
def exOne : InputAssumptionLattice := ⟨.dflt, some 1, [], false⟩

/-- An element forced to top (kind flag set by `top()`). -/
def exTopIAL : InputAssumptionLattice := ⟨.top, some 1, [], false⟩

/-- A three-element sequence of nested elements; joining it with
`exAssertOther` makes the length-reconciliation `assert` fail. -/
def exAssertSelf : InputAssumptionLattice :=
  ⟨.dflt, some 1, [exNested2, exNested2, exNested2], false⟩

/-- A one-element sequence holding only the unresolved placeholder. -/
def exAssertOther : InputAssumptionLattice := ⟨.dflt, some 1, [exPlaceholder], false⟩

/-- An integer-typed program variable. -/
def vX : VariableIdentifier := ⟨"x", .integer⟩

/-- A boolean-typed program variable. -/
def vB : VariableIdentifier := ⟨"b", .boolean⟩

/-- A float-typed program variable. -/
def vF : VariableIdentifier := ⟨"f", .float⟩

/-- A store over `TypeLattice` with no variables and no registered
lattice implementations (`Store([], {})` in the source). -/
def emptyStore : Store TypeLattice := ⟨fun _ => none, []⟩

/-- A complete lattice mapping: every variable type is registered, with
the factory building the `TypeLattice` rank of the variable's type. -/
def tlComplete : LyraType → Option (Unit → TypeLattice) :=
  fun t => some (fun _ => TypeLattice.from_lyra_type t)

/-- A mapping registering only the integer type. -/
def tlIntOnly : LyraType → Option (Unit → TypeLattice) :=
  fun t => if t = .integer then some (fun _ => .status .int) else none

/-- The factory `tlComplete` registers for the boolean type. -/
def mkBool : Unit → TypeLattice := fun _ => TypeLattice.from_lyra_type .boolean

/-- A one-entry store over `TypeLattice` with a complete mapping,
tracking only `vX`. -/
def exStore : Store TypeLattice := ⟨tlComplete, [(vX, .status .int)]⟩

/-- The result of `top()` on the integer rank. -/
def tInt : TypeLattice := TypeLattice.topped (.status .int)

/-! ## Helper lemmas -/

/-- Final state of the argument list carried by a loop outcome. -/
def JLRes.sndList : JLRes → Option (List Assump)
  | .fuel => none
  | .assertErr => none
  | .collapsed _ l2 => some l2
  | .okL _ l2 => some l2

/-- Final state of the join argument carried by a join outcome. -/
def JoinRes.sndIAL : JoinRes → Option InputAssumptionLattice
  | .ok _ o => some o
  | _ => none

lemma JLRes.sndList_cons (p : Assump × Assump) (t : JLRes) :
    (JLRes.cons p t).sndList = t.sndList.map (p.2 :: ·) := by
  cases t <;> rfl

lemma joinPos_snd
    (jp : InputAssumptionLattice → InputAssumptionLattice → JoinRes)
    (hjp : ∀ s o, (jp s o).sndIAL = none ∨ (jp s o).sndIAL = some o)
    (a1 a2 : Assump) (p : Assump × Assump)
    (h : Assump.joinPos jp a1 a2 = .okP p) : p.2 = a2 := by
  cases a1 with
  | leaf x =>
    cases a2 with
    | leaf y =>
      have e : Assump.joinPos jp (.leaf x) (.leaf y) =
          .okP (.leaf (x.join y), .leaf y) := rfl
      rw [e] at h
      injection h with h
      subst h
      rfl
    | nested k' i' l' b' =>
      cases i' with
      | none =>
        have e : Assump.joinPos jp (.leaf x) (.nested k' none l' b') =
            .okP (.leaf x, .nested k' none l' b') := rfl
        rw [e] at h
        injection h with h
        subst h
        rfl
      | some n' =>
        have e : Assump.joinPos jp (.leaf x) (.nested k' (some n') l' b') =
            .collapse := rfl
        rw [e] at h
        exact PosRes.noConfusion h
  | nested k i l b =>
    cases i with
    | none =>
      have e : Assump.joinPos jp (.nested k none l b) a2 = .okP (a2, a2) := rfl
      rw [e] at h
      injection h with h
      subst h
      rfl
    | some n =>
      cases a2 with
      | leaf y =>
        have e : Assump.joinPos jp (.nested k (some n) l b) (.leaf y) =
            .collapse := rfl
        rw [e] at h
        exact PosRes.noConfusion h
      | nested k' i' l' b' =>
        cases i' with
        | none =>
          have e : Assump.joinPos jp (.nested k (some n) l b) (.nested k' none l' b') =
              .okP (.nested k (some n) l b, .nested k' none l' b') := rfl
          rw [e] at h
          injection h with h
          subst h
          rfl
        | some n' =>
          have e : Assump.joinPos jp (.nested k (some n) l b) (.nested k' (some n') l' b') =
              (match jp ⟨k, some n, l, b⟩ ⟨k', some n', l', b'⟩ with
               | .fuel => PosRes.fuel
               | .assertErr => PosRes.assertErr
               | .ok j o2 => PosRes.okP (Assump.ofIAL j, Assump.ofIAL o2)) := rfl
          rw [e] at h
          rcases hj : jp ⟨k, some n, l, b⟩ ⟨k', some n', l', b'⟩ with _ | _ | ⟨j, o2⟩ <;>
            rw [hj] at h
          · exact PosRes.noConfusion h
          · exact PosRes.noConfusion h
          · have ho2 : o2 = ⟨k', some n', l', b'⟩ := by
              rcases hjp ⟨k, some n, l, b⟩ ⟨k', some n', l', b'⟩ with hx | hx <;>
                rw [hj] at hx <;> simp [JoinRes.sndIAL] at hx
              exact hx
            injection h with h
            subst h
            rw [ho2]
            rfl

lemma joinList_sndList
    (jp : InputAssumptionLattice → InputAssumptionLattice → JoinRes)
    (hjp : ∀ s o, (jp s o).sndIAL = none ∨ (jp s o).sndIAL = some o) :
    ∀ l1 l2, (InputAssumptionLattice.joinList jp l1 l2).sndList = none ∨
      (InputAssumptionLattice.joinList jp l1 l2).sndList = some l2 := by
  intro l1
  induction l1 with
  | nil => intro l2; right; cases l2 <;> rfl
  | cons a1 l1 ih =>
    intro l2
    cases l2 with
    | nil => right; rfl
    | cons a2 l2 =>
      have hunf : InputAssumptionLattice.joinList jp (a1 :: l1) (a2 :: l2) =
          match Assump.joinPos jp a1 a2 with
          | .fuel => .fuel
          | .assertErr => .assertErr
          | .collapse => .collapsed (a1 :: l1) (a2 :: l2)
          | .okP p => JLRes.cons p (InputAssumptionLattice.joinList jp l1 l2) := rfl
      rw [hunf]
      rcases hp : Assump.joinPos jp a1 a2 with _ | _ | _ | p
      · left; rfl
      · left; rfl
      · right; rfl
      · rw [JLRes.sndList_cons]
        rcases ih l2 with h | h <;> rw [h]
        · left; rfl
        · right
          rw [joinPos_snd jp hjp a1 a2 p hp]
          rfl

lemma withArg_sndIAL (t : JoinRes) (other : InputAssumptionLattice) :
    (t.withArg other).sndIAL = none ∨ (t.withArg other).sndIAL = some other := by
  cases t
  · left; rfl
  · left; rfl
  · right; rfl

lemma joinBody_sndIAL
    (jp : InputAssumptionLattice → InputAssumptionLattice → JoinRes)
    (hjp : ∀ s o, (jp s o).sndIAL = none ∨ (jp s o).sndIAL = some o)
    (self other : InputAssumptionLattice) :
    (InputAssumptionLattice.joinBody jp self other).sndIAL = none ∨
    (InputAssumptionLattice.joinBody jp self other).sndIAL = some other := by
  rw [InputAssumptionLattice.joinBody]
  repeat' split
  all_goals try (right; rfl)
  all_goals try (left; rfl)
  all_goals try (exact hjp _ other)
  all_goals try (exact withArg_sndIAL _ other)
  all_goals
    rename_i l1 l2 hl
  all_goals
    have hg : l2 = other.assmps := by
      rcases joinList_sndList jp hjp self.assmps other.assmps with h | h <;>
        rw [hl] at h <;> simp [JLRes.sndList] at h
      exact h
  all_goals subst hg
  all_goals right; rfl

lemma join_sndIAL (f : Nat) :
    ∀ self other : InputAssumptionLattice,
      (InputAssumptionLattice.join f self other).sndIAL = none ∨
      (InputAssumptionLattice.join f self other).sndIAL = some other := by
  induction f with
  | zero => intro self other; left; rfl
  | succ f ih =>
    intro self other
    rw [InputAssumptionLattice.join]
    by_cases h1 : (self.is_bottom || other.is_top) = true
    · simp only [h1, if_true]; right; rfl
    · simp only [h1, if_false]
      by_cases h2 : (other.is_bottom || self.is_top) = true
      · simp only [h2, if_true]; right; rfl
      · simp only [h2, if_false]
        exact joinBody_sndIAL (InputAssumptionLattice.join f) ih self other

/-! ## Theorems settling the claims -/

/-- C3: for every two `InputAssumptionLattice` elements whose iteration
counts are both resolved (not the unresolved sentinel) but differ from
each other, `join(other)` collapses the receiver to top (in particular
joining an element with 3 iterations onto one with 5 iterations over the
same sequence — see the witness). -/
theorem C3_differing_iterations_collapse_top
    (f : Nat) (self other : InputAssumptionLattice) (m k : Nat)
    (hs : self.kind = .dflt) (ho : other.kind = .dflt)
    (hm : self.iterations = some m) (hk : other.iterations = some k) (hne : m ≠ k) :
    InputAssumptionLattice.join (f + 1) self other = .ok self.toTop other := by
  rw [InputAssumptionLattice.join]
  simp only [InputAssumptionLattice.is_bottom, InputAssumptionLattice.is_top, hs, ho]
  rw [InputAssumptionLattice.joinBody]
  simp [hm, hk, hne]

/-- Witness for C3 at 3 vs 5 iterations over the same one-leaf sequence. -/
theorem C3_differing_iterations_collapse_top_witness :
    exIter3Seq.kind = .dflt ∧ exIter5Seq.kind = .dflt ∧
    exIter3Seq.iterations = some 3 ∧ exIter5Seq.iterations = some 5 ∧
    InputAssumptionLattice.join 1 exIter3Seq exIter5Seq = .ok exIter3Seq.toTop exIter5Seq :=
  ⟨rfl, rfl, rfl, rfl,
    C3_differing_iterations_collapse_top 0 exIter3Seq exIter5Seq 3 5 rfl rfl rfl rfl
      (by decide)⟩

/-- C5: for every pair of `InputAssumptionLattice` elements reaching the
domain-specific hook, `_meet` and `_widening` fail with the
unsupported-operation (`NotImplementedError`) outcome instead of
returning any approximated element. -/
theorem C5_meet_widening_unsupported (self other : InputAssumptionLattice) :
    InputAssumptionLattice.meet' self other = .error "Meet is not implemented."
    ∧ InputAssumptionLattice.widening' self other = .error "Widening is not implemented." :=
  ⟨rfl, rfl⟩

/-- C6: for every `AssumptionLattice` element, `is_bottom()` is true as
soon as any one of the two fields is bottom — not requiring both — while
`is_top()` is true only if all fields are top. -/
theorem C6_product_bottom_top_asymmetry (a : AssumptionLattice) :
    (a.is_bottom = true ↔
      (a.type_assmp.is_bottom = true ∨ a.range_assmp.is_bottom = true))
    ∧ (a.is_top = true ↔
      (a.type_assmp.is_top = true ∧ a.range_assmp.is_top = true)) := by
  constructor <;>
    simp [AssumptionLattice.is_bottom, AssumptionLattice.is_top,
      AssumptionLattice.assumptionValues, AField.is_bottom, AField.is_top]

/-- C10: `join` never mutates its argument: whenever the embedded join
(which threads the argument's state through every write the source
performs) returns, the final state of the argument equals its initial
state — the length-reconciliation fold applied when the argument is the
longer side operates on a deep copy of it. -/
theorem C10_join_argument_unchanged
    (f : Nat) (self other r o' : InputAssumptionLattice)
    (h : InputAssumptionLattice.join f self other = .ok r o') : o' = other := by
  rcases join_sndIAL f self other with hs | hs <;> rw [h] at hs
  · exact absurd hs (by simp [JoinRes.sndIAL])
  · simpa [JoinRes.sndIAL] using hs

/-- Witness for C10 on the orientation where the argument is the longer
side (the fold runs on a deep copy): the argument comes back unchanged. -/
theorem C10_join_argument_unchanged_witness :
    InputAssumptionLattice.join 10 exOtherShort exSelfLong = .ok exFolded exSelfLong
    ∧ exSelfLong = exSelfLong :=
  ⟨rfl, C10_join_argument_unchanged 10 exOtherShort exSelfLong exFolded exSelfLong rfl⟩

/-- C2: with equal resolved iteration counts and equal-length sequences,
`join(other)` proceeds position-wise ((1): the join is the loop's
outcome, collapsing the receiver's kind to top when the loop collapses):
(2) a nested receiver position with unresolved iterations adopts the
argument position's full content; (3) a nested argument position with
unresolved iterations keeps the receiver position's full content;
(4) two leaf positions are joined directly; (5) two nested positions
without the sentinel are joined directly; (6) two positions of different
kinds with no sentinel collapse, and (7) a collapsing position exits the
loop with both lists' remaining states, which by (1) tops the receiver. -/
theorem C2_equal_length_positionwise_join
    (f : Nat) (self other : InputAssumptionLattice) (n : Nat)
    (jp : InputAssumptionLattice → InputAssumptionLattice → JoinRes)
    (a1 a2 : Assump) (l1 l2 : List Assump) (x y : AssumptionLattice)
    (hs : self.kind = .dflt) (ho : other.kind = .dflt)
    (hm : self.iterations = some n) (hk : other.iterations = some n)
    (hlen : self.assmps.length = other.assmps.length) :
    (InputAssumptionLattice.join (f + 1) self other =
      (match InputAssumptionLattice.joinList (InputAssumptionLattice.join f)
          self.assmps other.assmps with
       | .fuel => .fuel
       | .assertErr => .assertErr
       | .collapsed g1 g2 =>
         .ok {self with kind := .top, assmps := g1} {other with assmps := g2}
       | .okL g1 g2 => .ok {self with assmps := g1} {other with assmps := g2}))
    ∧ (a1.isPlaceholder = true → Assump.joinPos jp a1 a2 = .okP (a2, a2))
    ∧ (a1.isPlaceholder = false → a2.isPlaceholder = true →
        Assump.joinPos jp a1 a2 = .okP (a1, a2))
    ∧ (Assump.joinPos jp (.leaf x) (.leaf y) = .okP (.leaf (x.join y), .leaf y))
    ∧ (a1.isPlaceholder = false → a2.isPlaceholder = false →
        a1.isNested = true → a2.isNested = true →
        Assump.joinPos jp a1 a2 =
          (match jp a1.toIAL a2.toIAL with
           | .fuel => .fuel
           | .assertErr => .assertErr
           | .ok j o2 => .okP (Assump.ofIAL j, Assump.ofIAL o2)))
    ∧ (a1.isPlaceholder = false → a2.isPlaceholder = false →
        a1.isNested ≠ a2.isNested → Assump.joinPos jp a1 a2 = .collapse)
    ∧ (Assump.joinPos jp a1 a2 = .collapse →
        InputAssumptionLattice.joinList jp (a1 :: l1) (a2 :: l2) =
          .collapsed (a1 :: l1) (a2 :: l2)) := by
  refine ⟨?_, ?_, ?_, ?_, ?_, ?_, ?_⟩
  · rw [InputAssumptionLattice.join]
    simp only [InputAssumptionLattice.is_bottom, InputAssumptionLattice.is_top, hs, ho]
    rw [InputAssumptionLattice.joinBody]
    simp [hm, hk, hlen, hs, ho]
  · intro h1
    simp [Assump.joinPos, h1]
  · intro h1 h2
    simp [Assump.joinPos, h1, h2]
  · rfl
  · intro h1 h2 h3 h4
    cases a1 with
    | leaf u => exact absurd h3 (by simp [Assump.isNested])
    | nested k i l b =>
      cases a2 with
      | leaf u => exact absurd h4 (by simp [Assump.isNested])
      | nested k' i' l' b' =>
        simp only [Assump.joinPos, h1, h2, Bool.false_eq_true, if_false,
          Assump.isNested, if_pos rfl]
        rfl
  · intro h1 h2 h3
    simp [Assump.joinPos, h1, h2, h3]
  · intro h
    have hunf : InputAssumptionLattice.joinList jp (a1 :: l1) (a2 :: l2) =
        match Assump.joinPos jp a1 a2 with
        | .fuel => .fuel
        | .assertErr => .assertErr
        | .collapse => .collapsed (a1 :: l1) (a2 :: l2)
        | .okP p => JLRes.cons p (InputAssumptionLattice.joinList jp l1 l2) := rfl
    rw [hunf, h]

/-- Witness for C2 at concrete inputs: equal-length default elements and
a placeholder/leaf position pair. -/
theorem C2_equal_length_positionwise_join_witness :
    (exOne.kind = .dflt ∧ exOne.iterations = some 1 ∧
      exOne.assmps.length = exOne.assmps.length)
    ∧ ((InputAssumptionLattice.join 1 exOne exOne =
        (match InputAssumptionLattice.joinList (InputAssumptionLattice.join 0)
            exOne.assmps exOne.assmps with
         | .fuel => .fuel
         | .assertErr => .assertErr
         | .collapsed g1 g2 =>
           .ok {exOne with kind := .top, assmps := g1} {exOne with assmps := g2}
         | .okL g1 g2 => .ok {exOne with assmps := g1} {exOne with assmps := g2}))
      ∧ (exPlaceholder.isPlaceholder = true →
          Assump.joinPos (InputAssumptionLattice.join 1) exPlaceholder exLeaf =
            .okP (exLeaf, exLeaf))
      ∧ (exPlaceholder.isPlaceholder = false → exLeaf.isPlaceholder = true →
          Assump.joinPos (InputAssumptionLattice.join 1) exPlaceholder exLeaf =
            .okP (exPlaceholder, exLeaf))
      ∧ (Assump.joinPos (InputAssumptionLattice.join 1)
          (.leaf AssumptionLattice.default) (.leaf AssumptionLattice.default) =
          .okP (.leaf (AssumptionLattice.default.join AssumptionLattice.default),
            .leaf AssumptionLattice.default))
      ∧ (exPlaceholder.isPlaceholder = false → exLeaf.isPlaceholder = false →
          exPlaceholder.isNested = true → exLeaf.isNested = true →
          Assump.joinPos (InputAssumptionLattice.join 1) exPlaceholder exLeaf =
            (match InputAssumptionLattice.join 1 exPlaceholder.toIAL exLeaf.toIAL with
             | .fuel => .fuel
             | .assertErr => .assertErr
             | .ok j o2 => .okP (Assump.ofIAL j, Assump.ofIAL o2)))
      ∧ (exPlaceholder.isPlaceholder = false → exLeaf.isPlaceholder = false →
          exPlaceholder.isNested ≠ exLeaf.isNested →
          Assump.joinPos (InputAssumptionLattice.join 1) exPlaceholder exLeaf = .collapse)
      ∧ (Assump.joinPos (InputAssumptionLattice.join 1) exPlaceholder exLeaf = .collapse →
          InputAssumptionLattice.joinList (InputAssumptionLattice.join 1)
            (exPlaceholder :: []) (exLeaf :: []) =
            .collapsed (exPlaceholder :: []) (exLeaf :: []))) :=
  ⟨⟨rfl, rfl, rfl⟩,
    C2_equal_length_positionwise_join 0 exOne exOne 1 (InputAssumptionLattice.join 1)
      exPlaceholder exLeaf [] [] AssumptionLattice.default AssumptionLattice.default
      rfl rfl rfl rfl rfl⟩

/-- C1 (counterexample): `exSelfLong` (three elements, iteration count 1)
joined with `exOtherShort` (two elements, same count).  The LONGER
side's first element is a nested element with RESOLVED iterations
(`exNested2`, not an unresolved placeholder), so the claim's pattern —
which requires the longer side's first element to carry unresolved
iterations — does not apply and the claim predicts collapse to ⊤.  The
code instead checks the SHORTER side's first element for the unresolved
sentinel (`exPlaceholder`, which holds here), folds the longer side's
first two nested elements and succeeds with an untopped receiver. -/
theorem C1_length_reconciliation_counterexample :
    InputAssumptionLattice.join 10 exSelfLong exOtherShort = .ok exFolded exOtherShort
    ∧ exFolded.is_top = false
    ∧ exSelfLong.assmps.head?.map Assump.isPlaceholder = some false
    ∧ exOtherShort.assmps.head?.map Assump.isPlaceholder = some true :=
  ⟨rfl, rfl, rfl, rfl⟩

/-- C1 (amended): with both counts resolved and equal and the sequence
lengths different, one reconciliation step is attempted — keyed on the
SHORTER side's first element being a nested element with unresolved
iterations and the LONGER side's first two elements being nested (their
iteration counts unconstrained): the longer side's first two elements
are folded via join and the second deleted; when the longer side is the
argument this happens on a deep copy, and the argument is handed back
unchanged.  The retry of the whole join only happens when the lengths
now agree, i.e. when the original difference was exactly one — otherwise
the `assert` fails with an `AssertionError`.  If the shapes do not match
this pattern (including an empty shorter side), the receiver collapses
to ⊤. -/
theorem C1_length_reconciliation_amended
    (f : Nat) (self other : InputAssumptionLattice) (n : Nat)
    (a0 a1 b0 b1 : Assump) (r1 r2 : List Assump)
    (hs : self.kind = .dflt) (ho : other.kind = .dflt)
    (hm : self.iterations = some n) (hk : other.iterations = some n)
    (hlen : self.assmps.length ≠ other.assmps.length) :
    (self.assmps = a0 :: a1 :: r1 → other.assmps = b0 :: r2 →
      self.assmps.length > other.assmps.length →
      b0.isPlaceholder = true → a0.isNested = true → a1.isNested = true →
      InputAssumptionLattice.join (f + 1) self other =
        (match InputAssumptionLattice.join f a0.toIAL a1.toIAL with
         | .fuel => .fuel
         | .assertErr => .assertErr
         | .ok j _ =>
           if r1.length + 1 = other.assmps.length then
             InputAssumptionLattice.join f {self with assmps := Assump.ofIAL j :: r1} other
           else .assertErr))
    ∧ (self.assmps = a0 :: a1 :: r1 → other.assmps = b0 :: r2 →
        self.assmps.length > other.assmps.length →
        ¬(b0.isPlaceholder = true ∧ a0.isNested = true ∧ a1.isNested = true) →
        InputAssumptionLattice.join (f + 1) self other = .ok self.toTop other)
    ∧ (self.assmps = a0 :: r1 → other.assmps = b0 :: b1 :: r2 →
        other.assmps.length > self.assmps.length →
        a0.isPlaceholder = true → b0.isNested = true → b1.isNested = true →
        InputAssumptionLattice.join (f + 1) self other =
          (match InputAssumptionLattice.join f b0.toIAL b1.toIAL with
           | .fuel => .fuel
           | .assertErr => .assertErr
           | .ok j _ =>
             if self.assmps.length = r2.length + 1 then
               (InputAssumptionLattice.join f self
                 {other with assmps := Assump.ofIAL j :: r2}).withArg other
             else .assertErr))
    ∧ (self.assmps = a0 :: r1 → other.assmps = b0 :: b1 :: r2 →
        other.assmps.length > self.assmps.length →
        ¬(a0.isPlaceholder = true ∧ b0.isNested = true ∧ b1.isNested = true) →
        InputAssumptionLattice.join (f + 1) self other = .ok self.toTop other)
    ∧ (self.assmps = [] ∨ other.assmps = [] →
        InputAssumptionLattice.join (f + 1) self other = .ok self.toTop other) := by
  have hwrap : InputAssumptionLattice.join (f + 1) self other =
      InputAssumptionLattice.joinBody (InputAssumptionLattice.join f) self other := by
    rw [InputAssumptionLattice.join]
    simp [InputAssumptionLattice.is_bottom, InputAssumptionLattice.is_top, hs, ho]
  have hc1 : ¬(other.iterations = none) := by rw [hk]; simp
  have hc2 : ¬(self.iterations = none) := by rw [hm]; simp
  have hc3 : ¬(self.iterations ≠ other.iterations) := by rw [hm, hk]; simp
  refine ⟨?_, ?_, ?_, ?_, ?_⟩
  · intro e1 e2 hgt hb0 ha0 ha1
    have hb0' : b0.isNested = true := by
      cases b0 with
      | leaf u => exact absurd hb0 (by simp [Assump.isPlaceholder])
      | nested k i l b => simp [Assump.isNested]
    rw [hwrap, InputAssumptionLattice.joinBody]
    rw [e1, e2] at hlen hgt ⊢
    rw [if_neg hc1, if_neg hc2, if_neg hc3, if_neg hlen,
      if_pos (show (a0 :: a1 :: r1).length > (b0 :: r2).length ∧ (b0 :: r2).length > 0 from
        ⟨hgt, by simp⟩)]
    simp [hb0', hb0, ha0, ha1]
  · intro e1 e2 hgt hpat
    rw [hwrap, InputAssumptionLattice.joinBody]
    rw [e1, e2] at hlen hgt ⊢
    rw [if_neg hc1, if_neg hc2, if_neg hc3, if_neg hlen,
      if_pos (show (a0 :: a1 :: r1).length > (b0 :: r2).length ∧ (b0 :: r2).length > 0 from
        ⟨hgt, by simp⟩)]
    by_cases hb0 : b0.isNested = true
    · simp [hb0, hpat]
    · simp [hb0]
  · intro e1 e2 hgt ha0 hb0 hb1
    have ha0' : a0.isNested = true := by
      cases a0 with
      | leaf u => exact absurd ha0 (by simp [Assump.isPlaceholder])
      | nested k i l b => simp [Assump.isNested]
    rw [hwrap, InputAssumptionLattice.joinBody]
    rw [e1, e2] at hlen hgt ⊢
    have hno : ¬((a0 :: r1).length > (b0 :: b1 :: r2).length ∧
        (b0 :: b1 :: r2).length > 0) := by
      intro hcon
      simp only [List.length_cons] at hcon hgt
      omega
    rw [if_neg hc1, if_neg hc2, if_neg hc3, if_neg hlen, if_neg hno,
      if_pos (show (b0 :: b1 :: r2).length > (a0 :: r1).length ∧ (a0 :: r1).length > 0 from
        ⟨hgt, by simp⟩)]
    simp [ha0', ha0, hb0, hb1]
  · intro e1 e2 hgt hpat
    rw [hwrap, InputAssumptionLattice.joinBody]
    rw [e1, e2] at hlen hgt ⊢
    have hno : ¬((a0 :: r1).length > (b0 :: b1 :: r2).length ∧
        (b0 :: b1 :: r2).length > 0) := by
      intro hcon
      simp only [List.length_cons] at hcon hgt
      omega
    rw [if_neg hc1, if_neg hc2, if_neg hc3, if_neg hlen, if_neg hno,
      if_pos (show (b0 :: b1 :: r2).length > (a0 :: r1).length ∧ (a0 :: r1).length > 0 from
        ⟨hgt, by simp⟩)]
    by_cases ha0 : a0.isNested = true
    · simp [ha0, hpat]
    · simp [ha0]
  · intro h
    rw [hwrap, InputAssumptionLattice.joinBody]
    rcases h with e | e <;> rw [e] at hlen ⊢
    · rw [if_neg hc1, if_neg hc2, if_neg hc3, if_neg hlen,
        if_neg (show ¬(([] : List Assump).length > other.assmps.length ∧
          other.assmps.length > 0) by simp),
        if_neg (show ¬(other.assmps.length > ([] : List Assump).length ∧
          ([] : List Assump).length > 0) by simp)]
    · rw [if_neg hc1, if_neg hc2, if_neg hc3, if_neg hlen,
        if_neg (show ¬(self.assmps.length > ([] : List Assump).length ∧
          ([] : List Assump).length > 0) by simp),
        if_neg (show ¬(([] : List Assump).length > self.assmps.length ∧
          self.assmps.length > 0) by simp)]

/-- Witness for C1 (amended) at the concrete reconciliation input
`exSelfLong` / `exOtherShort` (the first conjunct's pattern applies). -/
theorem C1_length_reconciliation_amended_witness :
    (exSelfLong.kind = .dflt ∧ exOtherShort.kind = .dflt ∧
      exSelfLong.iterations = some 1 ∧ exOtherShort.iterations = some 1 ∧
      exSelfLong.assmps.length ≠ exOtherShort.assmps.length)
    ∧ ((exSelfLong.assmps = exNested2 :: exNested2 :: [exLeaf] →
        exOtherShort.assmps = exPlaceholder :: [exLeaf] →
        exSelfLong.assmps.length > exOtherShort.assmps.length →
        exPlaceholder.isPlaceholder = true → exNested2.isNested = true →
        exNested2.isNested = true →
        InputAssumptionLattice.join (9 + 1) exSelfLong exOtherShort =
          (match InputAssumptionLattice.join 9 exNested2.toIAL exNested2.toIAL with
           | .fuel => .fuel
           | .assertErr => .assertErr
           | .ok j _ =>
             if [exLeaf].length + 1 = exOtherShort.assmps.length then
               InputAssumptionLattice.join 9
                 {exSelfLong with assmps := Assump.ofIAL j :: [exLeaf]} exOtherShort
             else .assertErr))
      ∧ (exSelfLong.assmps = exNested2 :: exNested2 :: [exLeaf] →
          exOtherShort.assmps = exPlaceholder :: [exLeaf] →
          exSelfLong.assmps.length > exOtherShort.assmps.length →
          ¬(exPlaceholder.isPlaceholder = true ∧ exNested2.isNested = true ∧
            exNested2.isNested = true) →
          InputAssumptionLattice.join (9 + 1) exSelfLong exOtherShort =
            .ok exSelfLong.toTop exOtherShort)
      ∧ (exSelfLong.assmps = exNested2 :: [exLeaf] →
          exOtherShort.assmps = exPlaceholder :: exLeaf :: [exLeaf] →
          exOtherShort.assmps.length > exSelfLong.assmps.length →
          exNested2.isPlaceholder = true → exPlaceholder.isNested = true →
          exLeaf.isNested = true →
          InputAssumptionLattice.join (9 + 1) exSelfLong exOtherShort =
            (match InputAssumptionLattice.join 9 exPlaceholder.toIAL exLeaf.toIAL with
             | .fuel => .fuel
             | .assertErr => .assertErr
             | .ok j _ =>
               if exSelfLong.assmps.length = [exLeaf].length + 1 then
                 (InputAssumptionLattice.join 9 exSelfLong
                   {exOtherShort with assmps := Assump.ofIAL j :: [exLeaf]}).withArg
                   exOtherShort
               else .assertErr))
      ∧ (exSelfLong.assmps = exNested2 :: [exLeaf] →
          exOtherShort.assmps = exPlaceholder :: exLeaf :: [exLeaf] →
          exOtherShort.assmps.length > exSelfLong.assmps.length →
          ¬(exNested2.isPlaceholder = true ∧ exPlaceholder.isNested = true ∧
            exLeaf.isNested = true) →
          InputAssumptionLattice.join (9 + 1) exSelfLong exOtherShort =
            .ok exSelfLong.toTop exOtherShort)
      ∧ (exSelfLong.assmps = [] ∨ exOtherShort.assmps = [] →
          InputAssumptionLattice.join (9 + 1) exSelfLong exOtherShort =
            .ok exSelfLong.toTop exOtherShort)) :=
  ⟨⟨rfl, rfl, rfl, rfl, by decide⟩,
    C1_length_reconciliation_amended 9 exSelfLong exOtherShort 1
      exNested2 exNested2 exPlaceholder exLeaf [exLeaf] [exLeaf]
      rfl rfl rfl rfl (by decide)⟩

/-- C4 (counterexample): the elements with 3 and 5 resolved iterations
over the same (empty) sequence are position-wise comparable, so
`less_equal` holds (it never consults the iteration counts), yet the
join collapses to top, which differs from the copy of the argument —
refuting the claimed equivalence for `InputAssumptionLattice`. -/
theorem C4_le_join_consistency_counterexample :
    InputAssumptionLattice.less_equal 1 exIter3 exIter5 = some true
    ∧ InputAssumptionLattice.join 1 exIter3 exIter5 = .ok exIter3.toTop exIter5
    ∧ exIter3.toTop ≠ exIter5 :=
  ⟨rfl, rfl, by simp [exIter3, exIter5, InputAssumptionLattice.toTop]⟩

lemma type_le_join_consistency (a b : TypeLattice) :
    a.less_equal b = true ↔ a.join b = b := by
  cases a with
  | bot =>
    cases b with
    | bot => decide
    | status t => cases t <;> decide
  | status s =>
    cases b with
    | bot => cases s <;> decide
    | status t => cases s <;> cases t <;> decide

lemma interval_le_join_consistency (a b : IntervalLattice) :
    a.less_equal b = true ↔ a.join b = b := by
  by_cases h1 : (a.is_bottom || b.is_top) = true
  · simp [IntervalLattice.less_equal, IntervalLattice.join, h1]
  · by_cases h2 : (b.is_bottom || a.is_top) = true
    · have hne : a ≠ b := by
        intro he
        subst he
        exact h1 h2
      simp [IntervalLattice.less_equal, IntervalLattice.join, h1, h2, hne]
    · have e1 : a.less_equal b = a.less_equal' b := by
        rw [IntervalLattice.less_equal, if_neg h1, if_neg h2]
      have e2 : a.join b = a.join' b := by
        rw [IntervalLattice.join, if_neg h1, if_neg h2]
      rw [e1, e2]
      simp only [Bool.or_eq_true, not_or, Bool.not_eq_true] at h1 h2
      obtain ⟨hab, hbt⟩ := h1
      obtain ⟨hbb, hat⟩ := h2
      rcases a with _ | ⟨l1, u1⟩
      · exact absurd hab (by simp [IntervalLattice.is_bottom])
      rcases b with _ | ⟨l2, u2⟩
      · exact absurd hbb (by simp [IntervalLattice.is_bottom])
      rcases l1 with _ | la <;> rcases u1 with _ | ua <;>
        rcases l2 with _ | lb <;> rcases u2 with _ | ub <;>
        simp_all [IntervalLattice.less_equal', IntervalLattice.join',
          IntervalLattice.is_bottom, IntervalLattice.is_top,
          min_eq_right_iff, max_eq_right_iff]

lemma assumption_le_join_consistency (a b : AssumptionLattice) :
    a.less_equal b = true ↔ a.join b = b := by
  by_cases h1 : (a.is_bottom || b.is_top) = true
  · simp [AssumptionLattice.less_equal, AssumptionLattice.join, h1]
  · by_cases h2 : (b.is_bottom || a.is_top) = true
    · have hne : a ≠ b := by
        intro he
        subst he
        exact h1 h2
      simp [AssumptionLattice.less_equal, AssumptionLattice.join, h1, h2, hne]
    · have e1 : a.less_equal b = a.less_equal' b := by
        rw [AssumptionLattice.less_equal, if_neg h1, if_neg h2]
      have e2 : a.join b = a.join' b := by
        rw [AssumptionLattice.join, if_neg h1, if_neg h2]
      rw [e1, e2]
      obtain ⟨at', ar⟩ := a
      obtain ⟨bt, br⟩ := b
      simp only [AssumptionLattice.less_equal', AssumptionLattice.join',
        Bool.and_eq_true, AssumptionLattice.mk.injEq]
      rw [type_le_join_consistency, interval_le_join_consistency]

/-- C4 (amended): the claimed equivalence `a.less_equal(b)` iff
`a.join(copy of b) == copy of b` holds for the `TypeLattice` and
`AssumptionLattice` domains of this library, but NOT in general for
`InputAssumptionLattice`: its `_less_equal` never consults the iteration
counts, so two elements with position-wise comparable sequences and
different resolved iteration counts are `less_equal` while their join
collapses to top (see the counterexample). -/
theorem C4_le_join_consistency_amended :
    (∀ a b : TypeLattice, a.less_equal b = true ↔ a.join b = b)
    ∧ (∀ a b : AssumptionLattice, a.less_equal b = true ↔ a.join b = b) :=
  ⟨type_le_join_consistency, assumption_le_join_consistency⟩

lemma lookupVar_insertVar_self {L : Type} (v : VariableIdentifier) (e : L) :
    ∀ l, lookupVar (insertVar v e l) v = some e := by
  intro l
  induction l with
  | nil => simp [insertVar, lookupVar]
  | cons p rest ih =>
    obtain ⟨w, e'⟩ := p
    by_cases h : w = v
    · simp [insertVar, lookupVar, h]
    · simp [insertVar, lookupVar, h, ih]

lemma lookupVar_insertVar_ne {L : Type} (v w : VariableIdentifier) (e : L)
    (hne : w ≠ v) : ∀ l, lookupVar (insertVar v e l) w = lookupVar l w := by
  intro l
  induction l with
  | nil => simp [insertVar, lookupVar, Ne.symm hne]
  | cons p rest ih =>
    obtain ⟨u, e'⟩ := p
    by_cases h : u = v
    · subst h
      simp [insertVar, lookupVar, Ne.symm hne]
    · simp [insertVar, lookupVar, h, ih]

lemma buildVarMap_complete_lookup {L : Type}
    (lattices : LyraType → Option (Unit → L)) :
    ∀ vars m, buildVarMap lattices vars = .ok m →
      ∀ v ∈ vars, ∃ mkv, lattices v.typ = some mkv ∧ lookupVar m v = some (mkv ()) := by
  intro vars
  induction vars with
  | nil => intro m _ v hv; exact absurd hv (List.not_mem_nil v)
  | cons v0 rest ih =>
    intro m hm v hv
    rw [buildVarMap] at hm
    rcases h0 : lattices v0.typ with _ | mk0 <;> rw [h0] at hm
    · exact absurd hm (by simp)
    · rcases hrest : buildVarMap lattices rest with e | m' <;> rw [hrest] at hm
      · exact absurd hm (by simp)
      · have hm' : m = insertVar v0 (mk0 ()) m' := by
          injection hm with hm
          exact hm.symm
        subst hm'
        by_cases hv0 : v = v0
        · subst hv0
          exact ⟨mk0, h0, lookupVar_insertVar_self v (mk0 ()) m'⟩
        · have hvrest : v ∈ rest := by
            rcases List.mem_cons.mp hv with h | h
            · exact absurd h hv0
            · exact h
          obtain ⟨mkv, hmkv, hlook⟩ := ih m' hrest v hvrest
          exact ⟨mkv, hmkv, by rw [lookupVar_insertVar_ne v0 v (mk0 ()) hv0 m', hlook]⟩

lemma buildVarMap_missing {L : Type}
    (lattices : LyraType → Option (Unit → L)) :
    ∀ vars (v : VariableIdentifier), v ∈ vars → lattices v.typ = none →
      ∃ t, buildVarMap lattices vars = .error (.missingLattice t) ∧
        lattices t = none ∧ ∃ w, w ∈ vars ∧ w.typ = t := by
  intro vars
  induction vars with
  | nil => intro v hv; exact absurd hv (List.not_mem_nil v)
  | cons v0 rest ih =>
    intro v hv hmiss
    rw [buildVarMap]
    rcases h0 : lattices v0.typ with _ | mk0
    · exact ⟨v0.typ, rfl, h0, v0, List.mem_cons_self v0 rest, rfl⟩
    · have hvrest : v ∈ rest := by
        rcases List.mem_cons.mp hv with h | h
        · subst h
          rw [hmiss] at h0
          exact absurd h0 (by simp)
        · exact h
      obtain ⟨t, herr, hnone, w, hw, hwt⟩ := ih v hvrest hmiss
      rw [herr]
      exact ⟨t, rfl, hnone, w, List.mem_cons_of_mem v0 hw, hwt⟩

lemma buildVarMap_error_member {L : Type}
    (lattices : LyraType → Option (Unit → L)) :
    ∀ vars e, buildVarMap lattices vars = .error e →
      ∃ t, e = .missingLattice t ∧ lattices t = none ∧
        ∃ w, w ∈ vars ∧ w.typ = t := by
  intro vars
  induction vars with
  | nil =>
    intro e he
    rw [buildVarMap] at he
    exact absurd he (by simp)
  | cons v0 rest ih =>
    intro e he
    rw [buildVarMap] at he
    rcases h0 : lattices v0.typ with _ | mk0 <;> rw [h0] at he
    · injection he with he
      exact ⟨v0.typ, he.symm, h0, v0, List.mem_cons_self v0 rest, rfl⟩
    · rcases hrest : buildVarMap lattices rest with e' | m' <;> rw [hrest] at he
      · injection he with he
        subst he
        obtain ⟨t, het, hnone, w, hw, hwt⟩ := ih e' hrest
        exact ⟨t, het, hnone, w, List.mem_cons_of_mem v0 hw, hwt⟩
      · exact absurd he (by simp)

/-- C7: Store construction over a variable list.  With a variable whose
static type has no entry in the lattice mapping, construction fails with
the configuration error naming a missing type and no (partial) store is
produced; with a complete mapping it succeeds and maps every variable to
a freshly constructed element of the lattice registered for its type. -/
theorem C7_store_construction {L : Type} (vars : List VariableIdentifier)
    (lattices : LyraType → Option (Unit → L)) (v : VariableIdentifier) :
    ((∀ w ∈ vars, (lattices w.typ).isSome = true) →
      ∃ s, Store.ofVars vars lattices = .ok s ∧ s.lattices = lattices ∧
        (v ∈ vars → ∃ mkv, lattices v.typ = some mkv ∧
          lookupVar s.store v = some (mkv ())))
    ∧ (v ∈ vars → lattices v.typ = none →
      ∃ t, Store.ofVars vars lattices = .error (.missingLattice t) ∧
        lattices t = none ∧ ∃ w, w ∈ vars ∧ w.typ = t) := by
  constructor
  · intro hall
    rcases hbuild : buildVarMap lattices vars with e | m
    · obtain ⟨t', _, hnone, w, hw, hwt⟩ :=
        buildVarMap_error_member lattices vars e hbuild
      have := hall w hw
      rw [hwt, hnone] at this
      exact absurd this (by simp)
    · refine ⟨⟨lattices, m⟩, ?_, rfl, ?_⟩
      · rw [Store.ofVars, hbuild]
      · intro hv
        exact buildVarMap_complete_lookup lattices vars m hbuild v hv
  · intro hv hmiss
    obtain ⟨t, herr, hnone, w, hw, hwt⟩ := buildVarMap_missing lattices vars v hv hmiss
    refine ⟨t, ?_, hnone, w, hw, hwt⟩
    rw [Store.ofVars, herr]

/-- Witness for C7: a complete mapping over two variables builds the
full store; a mapping lacking the boolean type makes construction fail
with the error naming it. -/
theorem C7_store_construction_witness :
    ((∀ w ∈ [vX, vB], (tlComplete w.typ).isSome = true) ∧
      vB ∈ [vB] ∧ tlIntOnly vB.typ = none)
    ∧ (((∀ w ∈ [vX, vB], (tlComplete w.typ).isSome = true) →
        ∃ s, Store.ofVars [vX, vB] tlComplete = .ok s ∧ s.lattices = tlComplete ∧
          (vX ∈ [vX, vB] → ∃ mkv, tlComplete vX.typ = some mkv ∧
            lookupVar s.store vX = some (mkv ())))
      ∧ (vX ∈ [vX, vB] → tlComplete vX.typ = none →
        ∃ t, Store.ofVars [vX, vB] tlComplete = .error (.missingLattice t) ∧
          tlComplete t = none ∧ ∃ w, w ∈ [vX, vB] ∧ w.typ = t))
    ∧ (((∀ w ∈ [vB], (tlIntOnly w.typ).isSome = true) →
        ∃ s, Store.ofVars [vB] tlIntOnly = .ok s ∧ s.lattices = tlIntOnly ∧
          (vB ∈ [vB] → ∃ mkv, tlIntOnly vB.typ = some mkv ∧
            lookupVar s.store vB = some (mkv ())))
      ∧ (vB ∈ [vB] → tlIntOnly vB.typ = none →
        ∃ t, Store.ofVars [vB] tlIntOnly = .error (.missingLattice t) ∧
          tlIntOnly t = none ∧ ∃ w, w ∈ [vB] ∧ w.typ = t)) :=
  ⟨⟨by decide, by decide, rfl⟩,
    C7_store_construction [vX, vB] tlComplete vX,
    C7_store_construction [vB] tlIntOnly vB⟩

lemma lookupVar_eq_none_of_not_mem {L : Type} (v : VariableIdentifier) :
    ∀ l : List (VariableIdentifier × L), v ∉ l.map Prod.fst → lookupVar l v = none := by
  intro l
  induction l with
  | nil => intro _; rfl
  | cons p rest ih =>
    obtain ⟨u, e⟩ := p
    intro h
    simp only [List.map_cons, List.mem_cons, not_or] at h
    simp [lookupVar, Ne.symm h.1, ih h.2]

lemma eraseVar_not_mem {L : Type} (v : VariableIdentifier) :
    ∀ l : List (VariableIdentifier × L), lookupVar l v = none → eraseVar v l = l := by
  intro l
  induction l with
  | nil => intro _; rfl
  | cons p rest ih =>
    obtain ⟨u, e⟩ := p
    intro h
    rw [lookupVar] at h
    by_cases hu : u = v
    · rw [if_pos hu] at h
      exact absurd h (by simp)
    · rw [if_neg hu] at h
      rw [eraseVar, if_neg hu, ih h]

lemma lookupVar_eraseVar_self {L : Type} (v : VariableIdentifier) :
    ∀ l : List (VariableIdentifier × L), (l.map Prod.fst).Nodup →
      lookupVar (eraseVar v l) v = none := by
  intro l
  induction l with
  | nil => intro _; rfl
  | cons p rest ih =>
    obtain ⟨u, e⟩ := p
    intro hnd
    simp only [List.map_cons, List.nodup_cons] at hnd
    by_cases hu : u = v
    · rw [eraseVar, if_pos hu]
      subst hu
      exact lookupVar_eq_none_of_not_mem u rest hnd.1
    · rw [eraseVar, if_neg hu, lookupVar, if_neg hu]
      exact ih hnd.2

lemma lookupVar_eraseVar_ne {L : Type} (v w : VariableIdentifier) (hne : w ≠ v) :
    ∀ l : List (VariableIdentifier × L),
      lookupVar (eraseVar v l) w = lookupVar l w := by
  intro l
  induction l with
  | nil => rfl
  | cons p rest ih =>
    obtain ⟨u, e⟩ := p
    by_cases hu : u = v
    · subst hu
      rw [eraseVar, if_pos rfl, lookupVar, if_neg (Ne.symm hne)]
    · rw [eraseVar, if_neg hu, lookupVar, lookupVar, ih]

/-- C8 (amended): `add_var` on an already-tracked variable raises the
invariant-violation error (no updated store is produced); on an
untracked variable whose type has a registered lattice it inserts a
fresh element leaving all other entries unchanged, but on an untracked
variable with an UNREGISTERED type it raises the missing-lattice
(`KeyError`) failure instead of inserting.  `remove_var` on an absent
variable is a silent no-op leaving the store unchanged; on a present
variable it deletes exactly that entry. -/
theorem C8_add_remove_var_amended {L : Type} (s : Store L)
    (v w : VariableIdentifier) (mkv : Unit → L) (e : L) :
    (lookupVar s.store v = some e → Store.add_var s v = .error .alreadyPresent)
    ∧ (lookupVar s.store v = none → s.lattices v.typ = none →
        Store.add_var s v = .error (.missingLattice v.typ))
    ∧ (lookupVar s.store v = none → s.lattices v.typ = some mkv →
        Store.add_var s v = .ok ({s with store := insertVar v (mkv ()) s.store})
        ∧ lookupVar (insertVar v (mkv ()) s.store) v = some (mkv ())
        ∧ (w ≠ v → lookupVar (insertVar v (mkv ()) s.store) w = lookupVar s.store w))
    ∧ (lookupVar s.store v = none → Store.remove_var s v = s)
    ∧ (lookupVar s.store v = some e →
        (((s.store.map Prod.fst).Nodup →
          lookupVar (Store.remove_var s v).store v = none)
        ∧ (w ≠ v →
          lookupVar (Store.remove_var s v).store w = lookupVar s.store w))) := by
  refine ⟨?_, ?_, ?_, ?_, ?_⟩
  · intro h
    rw [Store.add_var, h]
  · intro h1 h2
    rw [Store.add_var, h1, h2]
  · intro h1 h2
    refine ⟨by rw [Store.add_var, h1, h2], lookupVar_insertVar_self v (mkv ()) s.store, ?_⟩
    intro hw
    exact lookupVar_insertVar_ne v w (mkv ()) hw s.store
  · intro h
    rw [Store.remove_var, eraseVar_not_mem v s.store h]
  · intro _
    exact ⟨fun hnd => lookupVar_eraseVar_self v s.store hnd,
      fun hw => lookupVar_eraseVar_ne v w hw s.store⟩

/-- C8 (counterexample): on a store whose mapping registers no lattice
for the integer type, `add_var` of an untracked integer variable does
not insert a fresh element as claimed — the lookup of the lattice
implementation fails (`KeyError`) and no element is inserted. -/
theorem C8_add_remove_var_counterexample :
    lookupVar emptyStore.store vX = none
    ∧ Store.add_var emptyStore vX = .error (.missingLattice .integer) :=
  ⟨rfl, rfl⟩

/-- Witness for C8 (amended): a one-entry store; `vX` is present
(error on add, deleted by remove), `vB` is absent with a registered
type (fresh insert; remove is a no-op). -/
theorem C8_add_remove_var_amended_witness :
    (lookupVar exStore.store vX = some (.status .int) ∧
      lookupVar exStore.store vB = none ∧
      exStore.lattices vB.typ = some mkBool)
    ∧ ((lookupVar exStore.store vX = some (.status .int) →
        Store.add_var exStore vX = .error .alreadyPresent)
      ∧ (lookupVar exStore.store vX = none → exStore.lattices vX.typ = none →
          Store.add_var exStore vX = .error (.missingLattice vX.typ))
      ∧ (lookupVar exStore.store vX = none →
          exStore.lattices vX.typ = some mkBool →
          Store.add_var exStore vX =
            .ok ({exStore with store := insertVar vX (mkBool ()) exStore.store})
          ∧ lookupVar (insertVar vX (mkBool ()) exStore.store) vX = some (mkBool ())
          ∧ (vB ≠ vX →
            lookupVar (insertVar vX (mkBool ()) exStore.store) vB =
              lookupVar exStore.store vB))
      ∧ (lookupVar exStore.store vX = none → Store.remove_var exStore vX = exStore)
      ∧ (lookupVar exStore.store vX = some (.status .int) →
          (((exStore.store.map Prod.fst).Nodup →
            lookupVar (Store.remove_var exStore vX).store vX = none)
          ∧ (vB ≠ vX →
            lookupVar (Store.remove_var exStore vX).store vB =
              lookupVar exStore.store vB))))
    ∧ ((lookupVar exStore.store vB = some (.status .int) →
        Store.add_var exStore vB = .error .alreadyPresent)
      ∧ (lookupVar exStore.store vB = none → exStore.lattices vB.typ = none →
          Store.add_var exStore vB = .error (.missingLattice vB.typ))
      ∧ (lookupVar exStore.store vB = none →
          exStore.lattices vB.typ = some mkBool →
          Store.add_var exStore vB =
            .ok ({exStore with store := insertVar vB (mkBool ()) exStore.store})
          ∧ lookupVar (insertVar vB (mkBool ()) exStore.store) vB = some (mkBool ())
          ∧ (vX ≠ vB →
            lookupVar (insertVar vB (mkBool ()) exStore.store) vX =
              lookupVar exStore.store vX))
      ∧ (lookupVar exStore.store vB = none → Store.remove_var exStore vB = exStore)
      ∧ (lookupVar exStore.store vB = some (.status .int) →
          (((exStore.store.map Prod.fst).Nodup →
            lookupVar (Store.remove_var exStore vB).store vB = none)
          ∧ (vX ≠ vB →
            lookupVar (Store.remove_var exStore vB).store vX =
              lookupVar exStore.store vX)))) :=
  ⟨⟨rfl, rfl, rfl⟩,
    C8_add_remove_var_amended exStore vX vB mkBool
      (.status .int),
    C8_add_remove_var_amended exStore vB vX mkBool
      (.status .int)⟩

/-- C9 (counterexample): operations the claim calls total do fail:
on a legitimately constructed store, `invalidate_var` of an untracked
variable raises a `KeyError` (modelled `none`) instead of returning a
valid element; `add_assumptions_front` on a top element reads the
`assmps` property (which is `None` on top) and raises a `TypeError`
(modelled `none`); and `join` itself can fail its internal length
`assert` (`AssertionError`) on a reconcilable-looking shape whose length
difference exceeds one. -/
theorem C9_totality_counterexample :
    Store.ofVars ([] : List VariableIdentifier)
      (fun _ => (none : Option (Unit → TypeLattice))) = .ok emptyStore
    ∧ Store.invalidate_var TypeLattice.topped emptyStore vX = none
    ∧ InputAssumptionLattice.add_assumptions_front [AssumptionLattice.default] exTopIAL = none
    ∧ InputAssumptionLattice.join 10 exAssertSelf exAssertOther = .assertErr :=
  ⟨rfl, rfl, rfl, rfl⟩

/-- C9 (amended): `invalidate_var` resets exactly the given variable's
element to top when the variable is tracked, and fails (`KeyError`) on
an untracked variable; `add_assumption_front` is total — it works on any
element including top and bottom, since it writes the raw `_assmps`
field; `add_assumptions_with_iter` is likewise total; but
`add_assumptions_front` goes through the `assmps` property and therefore
fails (`TypeError`) on a top or bottom element, succeeding exactly on
elements of default kind. -/
theorem C9_totality_amended {L : Type} (topF : L → L) (s : Store L)
    (v w : VariableIdentifier) (e : L) (ial : InputAssumptionLattice)
    (a : AssumptionLattice) (new : List AssumptionLattice)
    (its : Nat) (wrapped : List Assump) :
    (lookupVar s.store v = some e →
      Store.invalidate_var topF s v =
        some ({s with store := insertVar v (topF e) s.store})
      ∧ lookupVar (insertVar v (topF e) s.store) v = some (topF e)
      ∧ (w ≠ v → lookupVar (insertVar v (topF e) s.store) w = lookupVar s.store w))
    ∧ (lookupVar s.store v = none → Store.invalidate_var topF s v = none)
    ∧ (InputAssumptionLattice.add_assumption_front a ial =
        {ial with assmps := .leaf a :: ial.assmps})
    ∧ (InputAssumptionLattice.add_assumptions_with_iter its wrapped ial =
        {ial with assmps := .nested .dflt (some its) wrapped true :: ial.assmps})
    ∧ (ial.kind = .dflt →
        InputAssumptionLattice.add_assumptions_front new ial =
          some ({ial with assmps := new.map .leaf ++ ial.assmps}))
    ∧ (ial.kind ≠ .dflt →
        InputAssumptionLattice.add_assumptions_front new ial = none) := by
  refine ⟨?_, ?_, rfl, rfl, ?_, ?_⟩
  · intro h
    refine ⟨by rw [Store.invalidate_var, h], lookupVar_insertVar_self v (topF e) s.store, ?_⟩
    intro hw
    exact lookupVar_insertVar_ne v w (topF e) hw s.store
  · intro h
    rw [Store.invalidate_var, h]
  · intro h
    rw [InputAssumptionLattice.add_assumptions_front, InputAssumptionLattice.assmpsProp]
    simp [InputAssumptionLattice.is_bottom, InputAssumptionLattice.is_top, h]
  · intro h
    rw [InputAssumptionLattice.add_assumptions_front, InputAssumptionLattice.assmpsProp]
    rcases hk : ial.kind
    · simp [InputAssumptionLattice.is_bottom, hk]
    · exact absurd hk h
    · simp [InputAssumptionLattice.is_bottom, InputAssumptionLattice.is_top, hk]

/-- Witness for C9 (amended) on the one-entry store (`vX` tracked, `vB`
untracked) and on a top element for the prepend helpers. -/
theorem C9_totality_amended_witness :
    (lookupVar exStore.store vX = some (.status .int) ∧
      lookupVar exStore.store vB = none ∧ exTopIAL.kind ≠ .dflt)
    ∧ ((lookupVar exStore.store vX = some (.status .int) →
        Store.invalidate_var TypeLattice.topped exStore vX =
          some ({exStore with store := insertVar vX tInt exStore.store})
        ∧ lookupVar (insertVar vX tInt exStore.store) vX =
            some tInt
        ∧ (vB ≠ vX →
          lookupVar (insertVar vX tInt exStore.store) vB =
            lookupVar exStore.store vB))
      ∧ (lookupVar exStore.store vX = none →
          Store.invalidate_var TypeLattice.topped exStore vX = none)
      ∧ (InputAssumptionLattice.add_assumption_front AssumptionLattice.default exTopIAL =
          {exTopIAL with assmps := .leaf AssumptionLattice.default :: exTopIAL.assmps})
      ∧ (InputAssumptionLattice.add_assumptions_with_iter 2 [exLeaf] exTopIAL =
          {exTopIAL with assmps := .nested .dflt (some 2) [exLeaf] true :: exTopIAL.assmps})
      ∧ (exTopIAL.kind = .dflt →
          InputAssumptionLattice.add_assumptions_front [AssumptionLattice.default] exTopIAL =
            some ({exTopIAL with assmps :=
              [AssumptionLattice.default].map .leaf ++ exTopIAL.assmps}))
      ∧ (exTopIAL.kind ≠ .dflt →
          InputAssumptionLattice.add_assumptions_front [AssumptionLattice.default] exTopIAL =
            none))
    ∧ ((lookupVar exStore.store vB = some (.status .int) →
        Store.invalidate_var TypeLattice.topped exStore vB =
          some ({exStore with store := insertVar vB tInt exStore.store})
        ∧ lookupVar (insertVar vB tInt exStore.store) vB =
            some tInt
        ∧ (vX ≠ vB →
          lookupVar (insertVar vB tInt exStore.store) vX =
            lookupVar exStore.store vX))
      ∧ (lookupVar exStore.store vB = none →
          Store.invalidate_var TypeLattice.topped exStore vB = none)
      ∧ (InputAssumptionLattice.add_assumption_front AssumptionLattice.default exOne =
          {exOne with assmps := .leaf AssumptionLattice.default :: exOne.assmps})
      ∧ (InputAssumptionLattice.add_assumptions_with_iter 2 [exLeaf] exOne =
          {exOne with assmps := .nested .dflt (some 2) [exLeaf] true :: exOne.assmps})
      ∧ (exOne.kind = .dflt →
          InputAssumptionLattice.add_assumptions_front [AssumptionLattice.default] exOne =
            some ({exOne with assmps :=
              [AssumptionLattice.default].map .leaf ++ exOne.assmps}))
      ∧ (exOne.kind ≠ .dflt →
          InputAssumptionLattice.add_assumptions_front [AssumptionLattice.default] exOne =
            none)) :=
  ⟨⟨rfl, rfl, by decide⟩,
    C9_totality_amended TypeLattice.topped exStore vX vB (.status .int) exTopIAL
      AssumptionLattice.default [AssumptionLattice.default] 2 [exLeaf],
    C9_totality_amended TypeLattice.topped exStore vB vX (.status .int) exOne
      AssumptionLattice.default [AssumptionLattice.default] 2 [exLeaf]⟩

end Lyra

